import Mathlib

/-!
# Verification of `docs/source/conf.py` (bazelbuild/rules_testing)

The repository's only source file is the Sphinx documentation-builder
configuration `docs/source/conf.py`: a Python module consisting of
top-level assignments of literal values.  We give a shallow embedding of
the fragment of Python needed to express that module faithfully — and,
importantly, a strictly larger fragment (variable references, environment
reads, calls, conditionals, loops, function definitions), so that claims
of the form "the file contains no control flow / no composition between
bindings" are genuine checks on the embedded syntax rather than
tautologies of the embedding.

Evaluation of a module is explicit state passing over an environment of
bindings; it is fallible (`Except`): referencing an unbound name, reading
a missing external variable, or reaching a construct outside the
evaluated fragment yields an error.  Machine-level concerns do not arise
(all values are strings, lists and dicts).
-/

namespace SphinxConf

mutual

/-- Runtime values of the configuration language: strings, lists of
values, and dicts with string keys.  (Mutual encoding of the nested
lists so that all functions below are structurally recursive.) -/
inductive Value where
  | str (s : String)
  | listV (elems : ValueList)
  | dictV (pairs : ValuePairs)

inductive ValueList where
  | nil
  | cons (v : Value) (vs : ValueList)

inductive ValuePairs where
  | nil
  | cons (k : String) (v : Value) (ps : ValuePairs)

end

/-- Build a list value from a list of strings. -/
def ValueList.ofStrings : List String → ValueList
  | [] => .nil
  | s :: rest => .cons (.str s) (ofStrings rest)

/-- A list value whose elements are the given strings. -/
def Value.strList (l : List String) : Value :=
  .listV (ValueList.ofStrings l)

mutual

/-- Expressions.  `conf.py` only ever uses the three literal forms, but
the type also has variable references, external-environment reads and
calls, so that their absence in the module is a checkable property. -/
inductive Expr where
  | str (s : String)
  | listE (elems : ExprList)
  | dictE (pairs : ExprPairs)
  | name (x : String)
  | getenv (key : String)
  | call (fn : String) (args : ExprList)

inductive ExprList where
  | nil
  | cons (e : Expr) (es : ExprList)

inductive ExprPairs where
  | nil
  | cons (k : String) (v : Expr) (ps : ExprPairs)

end

/-- Build a list expression from a list of strings. -/
def ExprList.ofStrings : List String → ExprList
  | [] => .nil
  | s :: rest => .cons (.str s) (ofStrings rest)

/-- A list-display expression whose elements are string literals. -/
def Expr.strList (l : List String) : Expr :=
  .listE (ExprList.ofStrings l)

/-- Top-level statements.  `conf.py` consists solely of assignments, but
the type also covers conditionals, loops, function definitions and bare
expression statements, so that "no control flow" is a real check. -/
inductive Stmt where
  | assign (lhs : String) (rhs : Expr)
  | ifStmt (cond : Expr) (thenBody elseBody : List Stmt)
  | whileStmt (cond : Expr) (body : List Stmt)
  | funcDef (fname : String) (params : List String) (body : List Stmt)
  | exprStmt (e : Expr)

/-- The embedding of `docs/source/conf.py`, statement by statement in
file order (comments elided, literals verbatim). -/
def confPy : List Stmt := [
  .assign "project" (.str "rules_testing"),
  .assign "copyright" (.str "2023, The Bazel Authors"),
  .assign "author" (.str "Bazel"),
  .assign "release" (.str "0.1"),
  .assign "version" (.str "0.1.0"),
  .assign "extensions" (.strList [
    "sphinx.ext.duration",
    "sphinx.ext.doctest",
    "sphinx.ext.autodoc",
    "sphinx.ext.autosummary",
    "sphinx.ext.intersphinx",
    "sphinx.ext.autosectionlabel",
    "myst_parser",
    "sphinx_rtd_theme"
  ]),
  .assign "intersphinx_mapping" (.dictE .nil),
  .assign "intersphinx_disabled_domains" (.strList ["std"]),
  .assign "intersphinx_disabled_reftypes" (.strList ["*"]),
  .assign "templates_path" (.strList ["_templates"]),
  .assign "html_theme" (.str "sphinx_rtd_theme"),
  .assign "html_theme_options" (.dictE .nil),
  .assign "myst_enable_extensions" (.strList [
    "fieldlist",
    "attrs_block",
    "attrs_inline",
    "colon_fence",
    "deflist"
  ]),
  .assign "html_static_path" (.strList ["_static"]),
  .assign "html_css_files" (.strList ["css/custom.css"]),
  .assign "epub_show_urls" (.str "footnote")
]

/-- The external input visible to a Python module (operating-system
environment variables and the like), abstracted as a partial map. -/
def ExtEnv : Type := String → Option String

/-- The module's binding environment: most recent binding first. -/
def Env : Type := List (String × Value)

/-- Look a variable up in the environment (latest binding wins). -/
def lookupVar : Env → String → Option Value
  | [], _ => none
  | (k, v) :: rest, x => if k = x then some v else lookupVar rest x

/-- Errors the embedded evaluation can produce. -/
inductive EvalError where
  | nameError (x : String)
  | keyError (k : String)
  | unsupportedExpr
  | unsupportedStmt

mutual

/-- Evaluate an expression.  Literals always succeed; a variable
reference fails on an unbound name; an external read fails on a missing
key; calls are outside the evaluated fragment. -/
def evalExpr (ext : ExtEnv) (env : Env) : Expr → Except EvalError Value
  | .str s => .ok (.str s)
  | .listE es =>
    match evalExprList ext env es with
    | .ok vs => .ok (.listV vs)
    | .error e => .error e
  | .dictE ps =>
    match evalExprPairs ext env ps with
    | .ok vps => .ok (.dictV vps)
    | .error e => .error e
  | .name x =>
    match lookupVar env x with
    | some v => .ok v
    | none => .error (.nameError x)
  | .getenv k =>
    match ext k with
    | some s => .ok (.str s)
    | none => .error (.keyError k)
  | .call _ _ => .error .unsupportedExpr

def evalExprList (ext : ExtEnv) (env : Env) : ExprList → Except EvalError ValueList
  | .nil => .ok .nil
  | .cons e es =>
    match evalExpr ext env e with
    | .ok v =>
      match evalExprList ext env es with
      | .ok vs => .ok (.cons v vs)
      | .error err => .error err
    | .error err => .error err

def evalExprPairs (ext : ExtEnv) (env : Env) : ExprPairs → Except EvalError ValuePairs
  | .nil => .ok .nil
  | .cons k e ps =>
    match evalExpr ext env e with
    | .ok v =>
      match evalExprPairs ext env ps with
      | .ok vps => .ok (.cons k v vps)
      | .error err => .error err
    | .error err => .error err

end

/-- Evaluate one statement.  An assignment binds its left-hand side;
the control-flow forms are outside the evaluated fragment (none occurs
in `conf.py`). -/
def evalStmt (ext : ExtEnv) (env : Env) : Stmt → Except EvalError Env
  | .assign lhs rhs =>
    match evalExpr ext env rhs with
    | .ok v => .ok ((lhs, v) :: env)
    | .error e => .error e
  | _ => .error .unsupportedStmt

/-- Evaluate a list of statements in order, threading the environment. -/
def evalStmts (ext : ExtEnv) (env : Env) : List Stmt → Except EvalError Env
  | [] => .ok env
  | s :: rest =>
    match evalStmt ext env s with
    | .ok env' => evalStmts ext env' rest
    | .error e => .error e

/-- Evaluate the whole module from the empty environment. -/
def evalConf (ext : ExtEnv) : Except EvalError Env :=
  evalStmts ext [] confPy

/-- The final environment produced by evaluating `conf.py` (most recent
binding first). -/
def confFinalEnv : Env := [
  ("epub_show_urls", .str "footnote"),
  ("html_css_files", .strList ["css/custom.css"]),
  ("html_static_path", .strList ["_static"]),
  ("myst_enable_extensions", .strList [
    "fieldlist", "attrs_block", "attrs_inline", "colon_fence", "deflist"]),
  ("html_theme_options", .dictV .nil),
  ("html_theme", .str "sphinx_rtd_theme"),
  ("templates_path", .strList ["_templates"]),
  ("intersphinx_disabled_reftypes", .strList ["*"]),
  ("intersphinx_disabled_domains", .strList ["std"]),
  ("intersphinx_mapping", .dictV .nil),
  ("extensions", .strList [
    "sphinx.ext.duration",
    "sphinx.ext.doctest",
    "sphinx.ext.autodoc",
    "sphinx.ext.autosummary",
    "sphinx.ext.intersphinx",
    "sphinx.ext.autosectionlabel",
    "myst_parser",
    "sphinx_rtd_theme"]),
  ("version", .str "0.1.0"),
  ("release", .str "0.1"),
  ("author", .str "Bazel"),
  ("copyright", .str "2023, The Bazel Authors"),
  ("project", .str "rules_testing")
]

mutual

/-- A literal expression: built only from string literals, list displays
and dict displays — no variable reference, no external read, no call. -/
def Expr.isLiteral : Expr → Bool
  | .str _ => true
  | .listE es => es.allLiteral
  | .dictE ps => ps.allLiteral
  | .name _ => false
  | .getenv _ => false
  | .call _ _ => false

def ExprList.allLiteral : ExprList → Bool
  | .nil => true
  | .cons e es => e.isLiteral && es.allLiteral

def ExprPairs.allLiteral : ExprPairs → Bool
  | .nil => true
  | .cons _ v ps => v.isLiteral && ps.allLiteral

end

/-- Every element of the expression list is a string literal. -/
def ExprList.allStr : ExprList → Bool
  | .nil => true
  | .cons (.str _) es => es.allStr
  | .cons _ _ => false

/-- A literal string, a literal mapping (all of whose values are
literal), or a literal sequence of strings. -/
def Expr.isLiteralConfigValue : Expr → Bool
  | .str _ => true
  | .listE es => es.allStr
  | .dictE ps => ps.allLiteral
  | .name _ => false
  | .getenv _ => false
  | .call _ _ => false

/-- The statement is a plain assignment (not a conditional, loop,
function definition or bare expression). -/
def Stmt.isAssign : Stmt → Bool
  | .assign _ _ => true
  | _ => false

/-- The statement is an assignment of a literal expression: it performs
no control flow, calls nothing, and composes no value from another
binding. -/
def Stmt.isPureLiteralAssign : Stmt → Bool
  | .assign _ rhs => rhs.isLiteral
  | _ => false

/-- The statement is an assignment of a literal string, literal mapping,
or literal sequence of strings. -/
def Stmt.isLiteralConfigAssign : Stmt → Bool
  | .assign _ rhs => rhs.isLiteralConfigValue
  | _ => false

/-- The value is of string type or of mapping type. -/
def Value.isStrOrMapping : Value → Bool
  | .str _ => true
  | .dictV _ => true
  | .listV _ => false

/-- Every element of the value list is a string. -/
def ValueList.allStr : ValueList → Bool
  | .nil => true
  | .cons (.str _) vs => vs.allStr
  | .cons _ _ => false

/-- The value is a list whose elements are all strings. -/
def Value.isStringList : Value → Bool
  | .listV vs => vs.allStr
  | .str _ => false
  | .dictV _ => false

/-- The value list contains the given string as an element. -/
def ValueList.containsStr : ValueList → String → Bool
  | .nil, _ => false
  | .cons (.str t) vs, s => t == s || vs.containsStr s
  | .cons _ vs, s => vs.containsStr s

mutual

/-- Boolean equality on values (used for decidable frame checks). -/
def Value.beq : Value → Value → Bool
  | .str a, .str b => a == b
  | .listV a, .listV b => a.beq b
  | .dictV a, .dictV b => a.beq b
  | _, _ => false

def ValueList.beq : ValueList → ValueList → Bool
  | .nil, .nil => true
  | .cons v vs, .cons w ws => v.beq w && vs.beq ws
  | _, _ => false

def ValuePairs.beq : ValuePairs → ValuePairs → Bool
  | .nil, .nil => true
  | .cons k v ps, .cons l w qs => k == l && v.beq w && ps.beq qs
  | _, _ => false

end

/-- Boolean equality on optional values. -/
def optValueBeq : Option Value → Option Value → Bool
  | none, none => true
  | some a, some b => a.beq b
  | _, _ => false

/-- The name bound by a statement, when it is an assignment. -/
def Stmt.lhsName : Stmt → Option String
  | .assign n _ => some n
  | _ => none

/-- The names bound by the module's assignments, in file order. -/
def boundNames : List String := confPy.filterMap Stmt.lhsName

/-- An external input providing nothing (never consulted by the
module). -/
def noExt : ExtEnv := fun _ => none

/-- The environment after evaluating the first `n` statements of the
module. -/
def envAfter (n : Nat) : Except EvalError Env :=
  evalStmts noExt [] (confPy.take n)

/-- Look up `x` in the environment after the first `n` statements. -/
def lookupAfter (n : Nat) (x : String) : Option Value :=
  match envAfter n with
  | .ok env => lookupVar env x
  | .error _ => none

/-- The name bound by the `i`-th statement of the module. -/
def nameAt (i : Nat) : String := boundNames.getD i ""

/-- For every statement index `i` and every later index `j`, the binding
made by statement `i` reads the same after statement `j` has run as it
did right after statement `i`: later statements leave earlier bindings
unchanged. -/
def framePreservedCheck : Bool :=
  (List.range confPy.length).all fun i =>
    (List.range confPy.length).all fun j =>
      Nat.blt j i ||
        optValueBeq (lookupAfter (j + 1) (nameAt i)) (lookupAfter (i + 1) (nameAt i))

/-- Modelled from the spec: the configuration schema — the fixed set of
top-level names recognized by the external documentation tool (Sphinx
core together with the options contributed by the enabled extensions) —
belongs to that external tool and is not part of this repository.  This
set lists the recognized names relevant here, following the spec's
description of the schema's contents. -/
def recognizedConfigNames : List String := [
  "project", "copyright", "author", "release", "version",
  "extensions", "templates_path", "exclude_patterns", "language",
  "source_suffix", "root_doc",
  "html_theme", "html_theme_options", "html_static_path",
  "html_css_files", "html_title",
  "epub_show_urls", "epub_title",
  "intersphinx_mapping", "intersphinx_disabled_domains",
  "intersphinx_disabled_reftypes",
  "myst_enable_extensions", "myst_heading_anchors",
  "autosectionlabel_prefix_document", "autodoc_typehints"
]

/-- Modelled from the spec: the kinds of recognized configuration names
the spec lists — project metadata fields, the extensions list, the theme
name and its options, static-path lists, and format-specific options
(options of a particular output format or of a particular enabled
input-processing extension, such as the EPUB URL-display mode, the
intersphinx options and the MyST options). -/
inductive ConfigKind where
  | projectMetadata
  | extensionsList
  | themeOption
  | staticPathList
  | formatOption

/-- Modelled from the spec: classify a recognized configuration name
under the spec's kinds. -/
def configKind : String → Option ConfigKind := fun n =>
  if n ∈ ["project", "copyright", "author", "release", "version"] then
    some .projectMetadata
  else if n = "extensions" then
    some .extensionsList
  else if n ∈ ["html_theme", "html_theme_options"] then
    some .themeOption
  else if n ∈ ["templates_path", "html_static_path", "html_css_files",
               "exclude_patterns"] then
    some .staticPathList
  else if n ∈ ["epub_show_urls", "epub_title",
               "intersphinx_mapping", "intersphinx_disabled_domains",
               "intersphinx_disabled_reftypes",
               "myst_enable_extensions", "myst_heading_anchors",
               "autosectionlabel_prefix_document", "autodoc_typehints"] then
    some .formatOption
  else
    none

/-- The statement assigns a name that is in the external tool's schema
and falls under one of the spec's kinds. -/
def Stmt.inSchemaWithKind : Stmt → Bool
  | .assign n _ => recognizedConfigNames.contains n && (configKind n).isSome
  | _ => false

/-- The string bound to `html_theme` is an element of the list bound to
`extensions`. -/
def htmlThemeInExtensions : Bool :=
  match lookupVar confFinalEnv "html_theme", lookupVar confFinalEnv "extensions" with
  | some (.str t), some (.listV es) => es.containsStr t
  | _, _ => false

/-- Evaluating the module always succeeds with `confFinalEnv`, whatever
the external input (the module never reads it).  Shared helper for the
theorems below. -/
theorem evalConf_eq (ext : ExtEnv) : evalConf ext = .ok confFinalEnv := rfl

/-- Claim C1: evaluating `conf.py` produces a flat set of named
configuration values: every top-level statement is an assignment (no
conditionals, loops, function definitions or bare expressions), every
right-hand side is a literal string, mapping or sequence of strings, and
no right-hand side references another binding, reads external input, or
performs a call. -/
theorem conf_is_flat_literal_bindings :
    confPy.all Stmt.isAssign = true ∧
    confPy.all Stmt.isPureLiteralAssign = true ∧
    confPy.all Stmt.isLiteralConfigAssign = true :=
  ⟨rfl, rfl, rfl⟩

/-- Claim C2, counterexample: the claim "every top-level value set by
the file is a string value or a mapping value" fails at the binding
`extensions`, whose value is a list; accordingly not every binding of
the final environment is of string or mapping type. -/
theorem strOrMapping_counterexample :
    (lookupVar confFinalEnv "extensions").map Value.isStrOrMapping = some false ∧
    confFinalEnv.all (fun p => p.2.isStrOrMapping) = false :=
  ⟨rfl, rfl⟩

/-- Claim C2, amended: every top-level value set by the file is a string
value, a mapping value, or a list-of-strings value. -/
theorem values_str_mapping_or_stringList :
    confFinalEnv.all (fun p => p.2.isStrOrMapping || p.2.isStringList) = true :=
  rfl

/-- Claim C3: every top-level name is assigned exactly once (the bound
names are pairwise distinct), and evaluating any later statement leaves
every earlier binding unchanged. -/
theorem single_assignment_and_frame :
    boundNames.Nodup ∧ framePreservedCheck = true := by
  exact ⟨by decide, by decide⟩

/-- Claim C4: the binding `extensions` is a list whose elements are
exactly the eight extension-name strings, in file order. -/
theorem extensions_list_exact :
    lookupVar confFinalEnv "extensions" = some (.strList [
      "sphinx.ext.duration",
      "sphinx.ext.doctest",
      "sphinx.ext.autodoc",
      "sphinx.ext.autosummary",
      "sphinx.ext.intersphinx",
      "sphinx.ext.autosectionlabel",
      "myst_parser",
      "sphinx_rtd_theme"]) :=
  rfl

/-- Claim C5: every top-level name bound by `conf.py` belongs to the
recognized configuration schema of the external documentation tool and
falls under one of the kinds the spec lists (the schema itself is
external to the repository and is modelled from the spec). -/
theorem bound_names_in_schema :
    confPy.all Stmt.inSchemaWithKind = true := by
  decide

/-- Claim C6: the module binds each entity kind the spec names: a
project name, the two version strings, a list of enabled extensions (a
list of strings), a mapping of external documentation link targets, and
a list of stylesheet paths. -/
theorem entity_bindings_present :
    lookupVar confFinalEnv "project" = some (.str "rules_testing") ∧
    lookupVar confFinalEnv "release" = some (.str "0.1") ∧
    lookupVar confFinalEnv "version" = some (.str "0.1.0") ∧
    (lookupVar confFinalEnv "extensions").map Value.isStringList = some true ∧
    lookupVar confFinalEnv "intersphinx_mapping" = some (.dictV .nil) ∧
    lookupVar confFinalEnv "html_css_files" = some (.strList ["css/custom.css"]) :=
  ⟨rfl, rfl, rfl, rfl, rfl, rfl⟩

/-- Claim C7: evaluating `conf.py` is total and error-free: for every
external input, evaluation of the whole module succeeds (no statement
fails), producing the final environment. -/
theorem evalConf_total (ext : ExtEnv) : evalConf ext = .ok confFinalEnv :=
  evalConf_eq ext

/-- Claim C8: evaluation of `conf.py` is deterministic and
input-independent: any two external inputs produce identical results
(hence identical bindings for every configuration name), since no
statement reads the environment or any other external input. -/
theorem evalConf_input_independent (ext1 ext2 : ExtEnv) :
    evalConf ext1 = evalConf ext2 :=
  (evalConf_eq ext1).trans (evalConf_eq ext2).symm

/-- Claim C9: the configured HTML theme is consistent with the extension
list: the string bound to `html_theme` is an element of the list bound
to `extensions`. -/
theorem html_theme_in_extensions : htmlThemeInExtensions = true := rfl

/-- Claim C10: the two version strings are mutually consistent: the
string bound to `release` is a proper prefix of the string bound to
`version`; equivalently `version` equals `release` concatenated with
`".0"`. -/
theorem release_version_consistent :
    lookupVar confFinalEnv "release" = some (.str "0.1") ∧
    lookupVar confFinalEnv "version" = some (.str "0.1.0") ∧
    "0.1.0" = "0.1" ++ ".0" ∧
    "0.1".data.isPrefixOf "0.1.0".data = true ∧
    "0.1" ≠ "0.1.0" := by
  refine ⟨rfl, rfl, rfl, rfl, by decide⟩

end SphinxConf
